import Mathlib

/-!
Verification of the client-side resilience layer of the email_client
repository: circuit breaker, token-bucket rate limiter, retry executor,
bounded connection pool and health checker.  Each Go function is embedded
as an executable Lean definition; times are integers (nanoseconds) for the
circuit breaker and rationals (seconds) for the rate limiter, matching the
exact arithmetic the Go code performs on the concrete values used here.
-/

namespace EmailClient

/-! ## Circuit breaker (client/circuit_breaker.go) -/

namespace CB

inductive CircuitState where
  | Closed
  | Open
  | HalfOpen
deriving DecidableEq

structure CircuitBreakerConfig where
  FailureThreshold : Int
  ResetTimeout : Int
  HalfOpenMaxRequests : Int
deriving DecidableEq

structure CircuitBreaker where
  state : CircuitState
  failureThreshold : Int
  resetTimeout : Int
  halfOpenMaxRequests : Int
  failureCount : Int
  successCount : Int
  lastFailureTime : Int
  requestCount : Int
deriving DecidableEq

/-- NewCircuitBreaker: builds a Closed breaker; a non-positive
HalfOpenMaxRequests is replaced by 1. -/
def NewCircuitBreaker (config : CircuitBreakerConfig) : CircuitBreaker :=
  { state := CircuitState.Closed
    failureThreshold := config.FailureThreshold
    resetTimeout := config.ResetTimeout
    halfOpenMaxRequests :=
      if config.HalfOpenMaxRequests ≤ 0 then 1 else config.HalfOpenMaxRequests
    failureCount := 0
    successCount := 0
    lastFailureTime := 0
    requestCount := 0 }

/-- IsAllowed: admission check at instant `now`; returns the updated breaker
and the decision.  In Open state the code tests
`lastFailureTime.Add(resetTimeout).Before(now)`, a strict comparison. -/
def IsAllowed (cb : CircuitBreaker) (now : Int) : CircuitBreaker × Bool :=
  match cb.state with
  | CircuitState.Closed => (cb, true)
  | CircuitState.Open =>
    if cb.lastFailureTime + cb.resetTimeout < now then
      ({ cb with state := CircuitState.HalfOpen, requestCount := 0, successCount := 0 }, true)
    else (cb, false)
  | CircuitState.HalfOpen =>
    if cb.requestCount < cb.halfOpenMaxRequests then
      ({ cb with requestCount := cb.requestCount + 1 }, true)
    else (cb, false)

/-- OnSuccess: resets the failure count in Closed; counts a success in
HalfOpen and closes the breaker once enough successes arrive. -/
def OnSuccess (cb : CircuitBreaker) : CircuitBreaker :=
  match cb.state with
  | CircuitState.Closed => { cb with failureCount := 0 }
  | CircuitState.HalfOpen =>
    if cb.successCount + 1 ≥ cb.halfOpenMaxRequests then
      { cb with state := CircuitState.Closed, successCount := cb.successCount + 1,
                failureCount := 0 }
    else { cb with successCount := cb.successCount + 1 }
  | CircuitState.Open => cb

/-- OnFailure: stamps `lastFailureTime` unconditionally, then counts the
failure in Closed (opening at the threshold) or reopens from HalfOpen. -/
def OnFailure (cb : CircuitBreaker) (now : Int) : CircuitBreaker :=
  let cb1 := { cb with lastFailureTime := now }
  match cb1.state with
  | CircuitState.Closed =>
    if cb1.failureCount + 1 ≥ cb1.failureThreshold then
      { cb1 with failureCount := cb1.failureCount + 1, state := CircuitState.Open }
    else { cb1 with failureCount := cb1.failureCount + 1 }
  | CircuitState.HalfOpen => { cb1 with state := CircuitState.Open }
  | CircuitState.Open => cb1

/-- Breaker of the full-cycle scenario: FailureThreshold 3,
ResetTimeout 2s (2000000000 ns), HalfOpenMaxRequests 1. -/
def cbC1 : CircuitBreaker :=
  NewCircuitBreaker
    { FailureThreshold := 3, ResetTimeout := 2000000000, HalfOpenMaxRequests := 1 }

/-- State of the scenario breaker after the initial admission check and
three OnFailure calls, all at instant 0. -/
def cbC1fail : CircuitBreaker :=
  OnFailure (OnFailure (OnFailure (IsAllowed cbC1 0).1 0) 0) 0

/-- Breaker with FailureThreshold 1 driven Open by one failure at instant 0,
used for the Open-state admission scenario. -/
def cbC4 : CircuitBreaker :=
  OnFailure
    (NewCircuitBreaker
      { FailureThreshold := 1, ResetTimeout := 2000000000, HalfOpenMaxRequests := 1 }) 0

end CB

/-! ## Retry executor (client/email_service.go, interceptor part) -/

namespace Retry

/-- Errors visible to the retry logic: gRPC status errors (carrying the
numeric status code and message), the two context errors, and plain
errors identified only by their message text. -/
inductive GoError where
  | grpcStatus (code : Nat) (msg : String)
  | ctxDeadlineExceeded
  | ctxCanceled
  | plain (msg : String)
deriving DecidableEq

/-- retryableCodes: Unavailable (14), DeadlineExceeded (4),
ResourceExhausted (8), Aborted (10), Internal (13). -/
def retryableCodes (code : Nat) : Bool :=
  code == 14 || code == 4 || code == 8 || code == 10 || code == 13

/-- Error text as returned by the Go error values. -/
def errorText : GoError → String
  | GoError.grpcStatus _ m => m
  | GoError.ctxDeadlineExceeded => "context deadline exceeded"
  | GoError.ctxCanceled => "context canceled"
  | GoError.plain m => m

/-- Whether the character list `p` occurs at the start of `s`. -/
def charsLead : List Char → List Char → Bool
  | [], _ => true
  | _ :: _, [] => false
  | p :: ps, s :: ss => p == s && charsLead ps ss

/-- Whether the character list `p` occurs contiguously anywhere in `s`
(the semantics of strings.Contains). -/
def charsHave (p : List Char) : List Char → Bool
  | [] => charsLead p []
  | s :: ss => charsLead p (s :: ss) || charsHave p ss

def stringHas (s pat : String) : Bool :=
  charsHave pat.toList s.toList

def connectionErrKeywords : List String :=
  ["connection", "connectivity", "transport", "broken pipe",
   "reset by peer", "timeout", "deadline", "closed"]

/-- isConnectionError: the Go loop tests, for each keyword, substring
containment and also the two context errors; since the keyword list is
non-empty this is containment of any keyword or being a context error. -/
def isConnectionError (e : GoError) : Bool :=
  connectionErrKeywords.any (fun k => stringHas (errorText e) k)
    || e == GoError.ctxDeadlineExceeded || e == GoError.ctxCanceled

/-- isRetryableError: a gRPC status error is retryable iff its code is in
the fixed set; otherwise context errors and connection-keyword errors are
retryable. -/
def isRetryableError : GoError → Bool
  | GoError.grpcStatus code _ => retryableCodes code
  | GoError.ctxDeadlineExceeded => true
  | GoError.ctxCanceled => true
  | GoError.plain m => isConnectionError (GoError.plain m)

/-- Outcome of the retry interceptor: success, an error returned
unmodified, or the final wrapped error carrying the attempt count. -/
inductive RetryOutcome where
  | ok
  | err (e : GoError)
  | exhausted (attempts : Int) (last : GoError)
deriving DecidableEq

/-- Retry loop of WithRetryAndMetrics for `maxRetries > 0`: `ops i` is the
error produced by the i-th invocation (none = success).  Returns the number
of invocations and the outcome. -/
def retryAux (ops : Nat → Option GoError) (m : Nat) (attempt : Nat) :
    Nat × RetryOutcome :=
  match ops attempt with
  | none => (1, RetryOutcome.ok)
  | some e =>
    if isRetryableError e then
      if attempt < m then
        let r := retryAux ops m (attempt + 1)
        (r.1 + 1, r.2)
      else (1, RetryOutcome.exhausted ((m : Int) + 1) e)
    else (1, RetryOutcome.err e)
termination_by m - attempt
decreasing_by omega

/-- WithRetryAndMetrics: with `maxRetries ≤ 0` the operation is invoked
once and its error returned unmodified; otherwise the retry loop runs for
attempts 0..maxRetries. -/
def WithRetryAndMetrics (ops : Nat → Option GoError) (maxRetries : Int) :
    Nat × RetryOutcome :=
  if maxRetries ≤ 0 then
    match ops 0 with
    | none => (1, RetryOutcome.ok)
    | some e => (1, RetryOutcome.err e)
  else retryAux ops maxRetries.toNat 0

/-- Operation that fails on every attempt with a retryable status error. -/
def opsC5 : Nat → Option GoError :=
  fun _ => some (GoError.grpcStatus 14 "service unavailable")

/-- Operation that fails with a non-retryable status error
(InvalidArgument, code 3). -/
def opsC6 : Nat → Option GoError :=
  fun _ => some (GoError.grpcStatus 3 "invalid argument")

end Retry

/-! ## Token-bucket rate limiter (client/middleware, rate limiter file) -/

namespace RL

structure RateLimiterConfig where
  RequestsPerSecond : ℚ
  MaxBurst : ℚ
  WaitTimeout : ℚ
deriving DecidableEq

/-- Rate-limiter state; Go stores tokens as float64, embedded here as
rationals (exact for every value the scenarios produce). -/
structure RateLimiter where
  tokens : ℚ
  maxTokens : ℚ
  refillRate : ℚ
  lastRefillTime : ℚ
  waitTimeout : ℚ
deriving DecidableEq

/-- NewRateLimiter at instant `now`: a non-positive RequestsPerSecond is
replaced by 1, a non-positive MaxBurst by the (adjusted) rate; the bucket
starts full. -/
def NewRateLimiter (config : RateLimiterConfig) (now : ℚ) : RateLimiter :=
  let rps := if config.RequestsPerSecond ≤ 0 then 1 else config.RequestsPerSecond
  let burst := if config.MaxBurst ≤ 0 then rps else config.MaxBurst
  { tokens := burst, maxTokens := burst, refillRate := rps,
    lastRefillTime := now, waitTimeout := config.WaitTimeout }

/-- refillTokens: lazily credits `elapsed * refillRate` tokens, clamping at
maxTokens, and advances lastRefillTime; a no-op when no time has elapsed. -/
def refillTokens (rl : RateLimiter) (now : ℚ) : RateLimiter :=
  let elapsed := now - rl.lastRefillTime
  if 0 < elapsed then
    let t := rl.tokens + elapsed * rl.refillRate
    { rl with tokens := if rl.maxTokens < t then rl.maxTokens else t,
              lastRefillTime := now }
  else rl

/-- Allow: refills, then consumes one token when at least one is
available. -/
def Allow (rl : RateLimiter) (now : ℚ) : RateLimiter × Bool :=
  let rl1 := refillTokens rl now
  if 1 ≤ rl1.tokens then ({ rl1 with tokens := rl1.tokens - 1 }, true)
  else (rl1, false)

/-- GetAvailableTokens: refills and reports the balance. -/
def GetAvailableTokens (rl : RateLimiter) (now : ℚ) : RateLimiter × ℚ :=
  let rl1 := refillTokens rl now
  (rl1, rl1.tokens)

/-- SetRate: ignores non-positive rates; otherwise settles pending credit
under the old rate, installs the new rate, and raises maxTokens (clamping
tokens) when the new rate exceeds it. -/
def SetRate (rl : RateLimiter) (now : ℚ) (requestsPerSecond : ℚ) : RateLimiter :=
  if requestsPerSecond ≤ 0 then rl
  else
    let rl1 := refillTokens rl now
    let rl2 := { rl1 with refillRate := requestsPerSecond }
    if rl2.maxTokens < requestsPerSecond then
      let rl3 := { rl2 with maxTokens := requestsPerSecond }
      if rl3.maxTokens < rl3.tokens then { rl3 with tokens := rl3.maxTokens }
      else rl3
    else rl2

/-- One observable operation on a rate limiter.  Wait with a positive
waitTimeout polls Allow at successive instants until admitted or timed
out, and with waitTimeout ≤ 0 performs a single Allow, so its token effect
is a fold of Allow over the list of polling instants. -/
inductive RLOp where
  | allow (now : ℚ)
  | wait (instants : List ℚ)
  | setRate (now : ℚ) (rate : ℚ)
  | getTokens (now : ℚ)

def applyOp (rl : RateLimiter) : RLOp → RateLimiter
  | RLOp.allow now => (Allow rl now).1
  | RLOp.wait instants => instants.foldl (fun r t => (Allow r t).1) rl
  | RLOp.setRate now rate => SetRate rl now rate
  | RLOp.getTokens now => (GetAvailableTokens rl now).1

def applyOps (rl : RateLimiter) (ops : List RLOp) : RateLimiter :=
  ops.foldl applyOp rl

/-- Limiter of the capacity scenario: RequestsPerSecond 10, MaxBurst 5,
constructed at instant 0. -/
def rlC2 : RateLimiter :=
  NewRateLimiter { RequestsPerSecond := 10, MaxBurst := 5, WaitTimeout := 0 } 0

/-- States of the capacity scenario after 1..6 Allow calls at instant 0
(the sixth call is denied and leaves the balance unchanged). -/
def rlA1 : RateLimiter := (Allow rlC2 0).1

def rlA2 : RateLimiter := (Allow rlA1 0).1

def rlA3 : RateLimiter := (Allow rlA2 0).1

def rlA4 : RateLimiter := (Allow rlA3 0).1

def rlA5 : RateLimiter := (Allow rlA4 0).1

def rlA6 : RateLimiter := (Allow rlA5 0).1

/-- Internal invariant of a rate limiter: token balance in range and a
positive refill rate. -/
def TokenInv (rl : RateLimiter) : Prop :=
  0 ≤ rl.tokens ∧ rl.tokens ≤ rl.maxTokens ∧ 0 < rl.refillRate

end RL

/-! ## Connection pool (client/conn, pool file) -/

namespace Pool

inductive ConnState where
  | Idle
  | Connecting
  | Ready
  | TransientFailure
  | Shutdown
deriving DecidableEq

/-- Pool state.  Connections are identified by creation index; `live` is
the set of created, not-yet-closed connections (the quantity the capacity
claim bounds), `closedConns` records every close, `counter` is the atomic
live counter the code maintains, and `idle` is the buffered channel
(FIFO, capacity maxSize). -/
structure PoolState where
  idle : List Nat
  live : List Nat
  closedConns : List Nat
  counter : Int
  maxSize : Int
  nextId : Nat
  closed : Bool
deriving DecidableEq

/-- The transport state of each connection at the instant of an operation
is an environment `st : Nat → ConnState`. -/
def isConnectionHealthy (st : Nat → ConnState) (c : Nat) : Bool :=
  st c != ConnState.TransientFailure && st c != ConnState.Shutdown

/-- createConnection: the factory succeeds and yields a fresh connection;
the counter is not touched here (exactly as in the code). -/
def createConnection (s : PoolState) : PoolState × Nat :=
  ({ s with nextId := s.nextId + 1, live := s.nextId :: s.live }, s.nextId)

/-- Closing a connection and decrementing the live counter. -/
def closeConn (s : PoolState) (c : Nat) : PoolState :=
  { s with live := s.live.erase c, closedConns := c :: s.closedConns,
           counter := s.counter - 1 }

inductive GetResult where
  | ok (c : Nat)
  | errPoolClosed
  | errTimeout
deriving DecidableEq

/-- createOrAcquireConnection: reserve a slot and create when below
maxSize; otherwise block on the idle channel (in a quiescent pool a pop
succeeds iff the channel is non-empty, else the acquire times out),
re-checking health and recursing after closing an unhealthy pop.  Also
returns the list of connections evicted along the way. -/
def createOrAcquireConnection (st : Nat → ConnState) (s : PoolState) :
    PoolState × GetResult × List Nat :=
  if s.counter < s.maxSize then
    let s0 := { s with counter := s.counter + 1 }
    let r := createConnection s0
    (r.1, GetResult.ok r.2, [])
  else
    match h : s.idle with
    | [] => (s, GetResult.errTimeout, [])
    | c :: rest =>
      if isConnectionHealthy st c then
        ({ s with idle := rest }, GetResult.ok c, [])
      else
        let s1 := closeConn { s with idle := rest } c
        let r := createOrAcquireConnection st s1
        (r.1, r.2.1, c :: r.2.2)
termination_by s.idle.length
decreasing_by simp [closeConn, h]

/-- Get: non-blocking pop from the idle channel; an unhealthy pop is
closed (counter decremented) before falling back to
createOrAcquireConnection; an empty channel falls back directly. -/
def Get (st : Nat → ConnState) (s : PoolState) :
    PoolState × GetResult × List Nat :=
  if s.closed then (s, GetResult.errPoolClosed, [])
  else
    match s.idle with
    | [] => createOrAcquireConnection st s
    | c :: rest =>
      if isConnectionHealthy st c then
        ({ s with idle := rest }, GetResult.ok c, [])
      else
        let s1 := closeConn { s with idle := rest } c
        let r := createOrAcquireConnection st s1
        (r.1, r.2.1, c :: r.2.2)

/-- Put: a connection returned to a closed pool or an unhealthy one is
closed; otherwise it is pushed back when the channel has room, else
closed as surplus. -/
def Put (st : Nat → ConnState) (s : PoolState) (c : Nat) : PoolState :=
  if s.closed then closeConn s c
  else if ¬ isConnectionHealthy st c then closeConn s c
  else if (s.idle.length : Int) < s.maxSize then { s with idle := s.idle ++ [c] }
  else closeConn s c

/-- Constructor loop: creates `n` initial connections and sends them to
the idle channel; the live counter is never incremented here, mirroring
the code. -/
def poolInit : Nat → PoolState → PoolState
  | 0, s => s
  | n + 1, s =>
    let r := createConnection s
    poolInit n { r.1 with idle := r.1.idle ++ [r.2] }

/-- NewConnectionPool: validates and clamps the configuration, then
creates the initial connections. -/
def NewConnectionPool (initialSize maxSize : Int) : PoolState :=
  let m := if maxSize < 1 then 1 else maxSize
  let i0 := if initialSize < 0 then 0 else initialSize
  let i := if m < i0 then m else i0
  poolInit i.toNat
    { idle := [], live := [], closedConns := [], counter := 0,
      maxSize := m, nextId := 0, closed := false }

/-- Environment in which every connection is Ready. -/
def stReady : Nat → ConnState := fun _ => ConnState.Ready

/-- Environment in which connection 0 has entered TransientFailure. -/
def stC9 : Nat → ConnState :=
  fun c => if c = 0 then ConnState.TransientFailure else ConnState.Ready

/-- Pool of the capacity scenario: InitialSize 1, MaxSize 1. -/
def poolC3 : PoolState := NewConnectionPool 1 1

/-- The capacity-scenario pool after two Get calls (no Put). -/
def poolC3b : PoolState := (Get stReady (Get stReady poolC3).1).1

/-- Pool holding one idle connection (id 0) with counter 1, for the
health-eviction scenario. -/
def poolC9 : PoolState :=
  { idle := [0], live := [0], closedConns := [], counter := 1,
    maxSize := 1, nextId := 1, closed := false }

/-- What the acquire path guarantees about its output
`out = (new state, result, evicted)`: a returned connection is either
healthy or freshly created (id at least the old nextId); every evicted
connection is unhealthy and recorded closed; the counter moves by exactly
one decrement per eviction plus one increment per creation; nextId is
monotone; the closed set is monotone. -/
def CaqSpec (st : Nat → ConnState) (s : PoolState)
    (out : PoolState × GetResult × List Nat) : Prop :=
  (∀ c, out.2.1 = GetResult.ok c →
      isConnectionHealthy st c = true ∨ s.nextId ≤ c)
  ∧ (∀ c, c ∈ out.2.2 →
      isConnectionHealthy st c = false ∧ c ∈ out.1.closedConns)
  ∧ out.1.counter =
      s.counter - out.2.2.length + ((out.1.nextId : Int) - (s.nextId : Int))
  ∧ s.nextId ≤ out.1.nextId
  ∧ (∀ x, x ∈ s.closedConns → x ∈ out.1.closedConns)

end Pool

/-! ## Health checker (client/conn/health.go) -/

namespace HC

/-- Health-checker state: whether the monitor is (believed) running and
whether the stop channel has been closed.  The stop channel is created
once, in the constructor, and never recreated. -/
structure HealthChecker where
  isRunning : Bool
  stopChanClosed : Bool
deriving DecidableEq

def NewHealthChecker : HealthChecker :=
  { isRunning := false, stopChanClosed := false }

/-- Start: a no-op while running; otherwise marks running and spawns the
loop (which exits at once if the stop channel is already closed). -/
def Start (h : HealthChecker) : HealthChecker :=
  if h.isRunning then h else { h with isRunning := true }

/-- Stop: a no-op when not running; otherwise closes the stop channel.
Closing an already-closed Go channel panics, modelled as `none`. -/
def Stop (h : HealthChecker) : Option HealthChecker :=
  if ¬ h.isRunning then some h
  else if h.stopChanClosed then none
  else some { isRunning := false, stopChanClosed := true }

inductive HCOp where
  | start
  | stop

/-- Runs a sequence of Start/Stop calls; `none` means a call panicked. -/
def runHC : List HCOp → Option HealthChecker → Option HealthChecker
  | [], s => s
  | _ :: _, none => none
  | op :: ops, some h =>
    match op with
    | HCOp.start => runHC ops (some (Start h))
    | HCOp.stop => runHC ops (Stop h)

end HC

end EmailClient

/-! # Theorems -/

namespace EmailClient

open CB

/-- Claim C10: every breaker built by NewCircuitBreaker has
halfOpenMaxRequests at least 1; a configuration with a zero or negative
HalfOpenMaxRequests is silently clamped to 1 at construction. -/
theorem new_circuit_breaker_half_open_clamp (config : CircuitBreakerConfig) :
    1 ≤ (NewCircuitBreaker config).halfOpenMaxRequests
    ∧ (config.HalfOpenMaxRequests ≤ 0 →
        (NewCircuitBreaker config).halfOpenMaxRequests = 1) := by
  unfold NewCircuitBreaker
  by_cases h : config.HalfOpenMaxRequests ≤ 0 <;> simp [h] <;> omega

/-- Witness for C10: the clamp fires on HalfOpenMaxRequests = 0. -/
theorem new_circuit_breaker_half_open_clamp_witness :
    (NewCircuitBreaker
      { FailureThreshold := 3, ResetTimeout := 2000000000,
        HalfOpenMaxRequests := 0 }).halfOpenMaxRequests = 1 :=
  (new_circuit_breaker_half_open_clamp
    { FailureThreshold := 3, ResetTimeout := 2000000000,
      HalfOpenMaxRequests := 0 }).2 (by decide)

/-- Counterexample to C4 as stated: with the breaker opened at instant 0
and resetTimeout 2000000000, IsAllowed at the exact instant
lastFailureTime + resetTimeout returns false (the code compares strictly),
and when an admission does occur the new HalfOpen state still has
requestCount 0, so the admission did not consume a probe slot. -/
theorem open_admission_claim_false :
    cbC4.state = CircuitState.Open
    ∧ cbC4.lastFailureTime + cbC4.resetTimeout = 2000000000
    ∧ (IsAllowed cbC4 2000000000).2 = false
    ∧ (IsAllowed cbC4 2000000001).2 = true
    ∧ (IsAllowed cbC4 2000000001).1.requestCount = 0 := by decide

/-- Claim C4 (amended): whenever the breaker is Open, IsAllowed returns
true iff now is strictly later than lastFailureTime + resetTimeout (at the
exact instant it returns false), and an admission transitions to HalfOpen
with requestCount and successCount reset to 0 — the admission itself does
not consume one of the halfOpenMaxRequests probe slots. -/
theorem open_admission_check (cb : CircuitBreaker) (now : Int)
    (h : cb.state = CircuitState.Open) :
    ((IsAllowed cb now).2 = true ↔ cb.lastFailureTime + cb.resetTimeout < now)
    ∧ ((IsAllowed cb now).2 = true →
        (IsAllowed cb now).1.state = CircuitState.HalfOpen
        ∧ (IsAllowed cb now).1.requestCount = 0
        ∧ (IsAllowed cb now).1.successCount = 0) := by
  obtain ⟨st, ft, rt, hm, fc, sc, lf, rc⟩ := cb
  simp only [CircuitBreaker.mk.injEq] at h
  subst h
  by_cases hlt : lf + rt < now <;> simp [IsAllowed, hlt]

/-- Witness for C4 (amended): a concrete Open breaker checked after its
reset timeout. -/
theorem open_admission_check_witness :
    ((IsAllowed cbC4 3000000000).2 = true ↔
      cbC4.lastFailureTime + cbC4.resetTimeout < 3000000000)
    ∧ ((IsAllowed cbC4 3000000000).2 = true →
        (IsAllowed cbC4 3000000000).1.state = CircuitState.HalfOpen
        ∧ (IsAllowed cbC4 3000000000).1.requestCount = 0
        ∧ (IsAllowed cbC4 3000000000).1.successCount = 0) :=
  open_admission_check cbC4 3000000000 (by decide)

/-- Counterexample to C1 as stated: after the three failures and the reset
timeout, the first IsAllowed returns true and the immediately following
IsAllowed also returns true (the claim asserts it returns false). -/
theorem circuit_breaker_second_probe_allowed :
    (IsAllowed cbC1fail 2000000001).2 = true
    ∧ (IsAllowed (IsAllowed cbC1fail 2000000001).1 2000000001).2 = true := by
  decide

/-- Claim C1 (amended): with FailureThreshold 3, ResetTimeout 2s,
HalfOpenMaxRequests 1: the first IsAllowed is true; after three OnFailure
calls IsAllowed is false; at any instant strictly after the reset timeout
IsAllowed returns true twice (the Open-to-HalfOpen transition call, which
does not consume a probe slot, and the single HalfOpen slot) and the third
call returns false; a single OnSuccess then returns the breaker to Closed,
where IsAllowed is true again. -/
theorem circuit_breaker_full_cycle (t : Int) (h : 2000000000 < t) :
    (IsAllowed cbC1 0).2 = true
    ∧ (IsAllowed cbC1fail 0).2 = false
    ∧ (IsAllowed cbC1fail t).2 = true
    ∧ (IsAllowed (IsAllowed cbC1fail t).1 t).2 = true
    ∧ (IsAllowed (IsAllowed (IsAllowed cbC1fail t).1 t).1 t).2 = false
    ∧ (OnSuccess (IsAllowed (IsAllowed (IsAllowed cbC1fail t).1 t).1 t).1).state
        = CircuitState.Closed
    ∧ (IsAllowed
        (OnSuccess (IsAllowed (IsAllowed (IsAllowed cbC1fail t).1 t).1 t).1) t).2
        = true := by
  have hfail : cbC1fail =
      { state := CircuitState.Open, failureThreshold := 3,
        resetTimeout := 2000000000, halfOpenMaxRequests := 1,
        failureCount := 3, successCount := 0, lastFailureTime := 0,
        requestCount := 0 } := by decide
  rw [hfail]
  simp [IsAllowed, OnSuccess, cbC1, NewCircuitBreaker, h]

/-- Witness for C1 (amended): the cycle at probe instant 2000000001 ns. -/
theorem circuit_breaker_full_cycle_witness :
    (IsAllowed cbC1 0).2 = true
    ∧ (IsAllowed cbC1fail 0).2 = false
    ∧ (IsAllowed cbC1fail 2000000001).2 = true
    ∧ (IsAllowed (IsAllowed cbC1fail 2000000001).1 2000000001).2 = true
    ∧ (IsAllowed (IsAllowed (IsAllowed cbC1fail 2000000001).1 2000000001).1
        2000000001).2 = false
    ∧ (OnSuccess (IsAllowed (IsAllowed (IsAllowed cbC1fail 2000000001).1
        2000000001).1 2000000001).1).state = CircuitState.Closed
    ∧ (IsAllowed (OnSuccess (IsAllowed (IsAllowed (IsAllowed cbC1fail
        2000000001).1 2000000001).1 2000000001).1) 2000000001).2 = true :=
  circuit_breaker_full_cycle 2000000001 (by decide)

open Retry

/-- When every attempt fails with a retryable error, the retry loop runs
attempts `attempt..m` (that is `k + 1` invocations when `attempt + k = m`)
and ends exhausted with the last error, wrapping the attempt count
`m + 1`. -/
theorem retryAux_all_retryable (ops : Nat → Option GoError)
    (h : ∀ i, ∃ e, ops i = some e ∧ isRetryableError e = true) :
    ∀ (k attempt m : Nat), attempt + k = m →
      ∃ e, ops m = some e ∧
        retryAux ops m attempt =
          (k + 1, RetryOutcome.exhausted ((m : Int) + 1) e) := by
  intro k
  induction k with
  | zero =>
    intro attempt m hm
    obtain ⟨e, he, hr⟩ := h m
    refine ⟨e, he, ?_⟩
    have : attempt = m := by omega
    subst this
    unfold retryAux
    simp [he, hr]
  | succ k ih =>
    intro attempt m hm
    obtain ⟨e, he, hr⟩ := h attempt
    obtain ⟨e', he', hrec⟩ := ih (attempt + 1) m (by omega)
    refine ⟨e', he', ?_⟩
    unfold retryAux
    simp [he, hr, show attempt < m by omega, hrec]

/-- Claim C5: when every invocation fails with a retryable error, the
retry interceptor with maxRetries = 3 invokes the operation exactly 4
times (1 initial + 3 retries) and returns the wrapped error identifying
4 attempts and wrapping the last underlying error. -/
theorem retry_exhaustion (ops : Nat → Option GoError)
    (h : ∀ i, ∃ e, ops i = some e ∧ isRetryableError e = true) :
    ∃ e, ops 3 = some e ∧
      WithRetryAndMetrics ops 3 = (4, RetryOutcome.exhausted 4 e) := by
  obtain ⟨e, he, hr⟩ := retryAux_all_retryable ops h 3 0 3 rfl
  refine ⟨e, he, ?_⟩
  unfold WithRetryAndMetrics
  norm_num
  rw [show Int.toNat 3 = 3 from rfl, hr]
  norm_num

/-- Witness for C5: every attempt fails with Unavailable (code 14). -/
theorem retry_exhaustion_witness :
    ∃ e, opsC5 3 = some e ∧
      WithRetryAndMetrics opsC5 3 = (4, RetryOutcome.exhausted 4 e) :=
  retry_exhaustion opsC5
    (fun _ => ⟨GoError.grpcStatus 14 "service unavailable", rfl, by decide⟩)

/-- Claim C6: when the first invocation fails with a non-retryable error,
the retry interceptor returns that error after exactly one invocation,
unmodified, for every value of maxRetries. -/
theorem retry_terminal_classification (ops : Nat → Option GoError)
    (e : GoError) (maxRetries : Int)
    (h0 : ops 0 = some e) (h1 : isRetryableError e = false) :
    WithRetryAndMetrics ops maxRetries = (1, RetryOutcome.err e) := by
  unfold WithRetryAndMetrics
  by_cases hm : maxRetries ≤ 0
  · simp [hm, h0]
  · simp only [hm, if_false]
    unfold retryAux
    simp [h0, h1]

/-- Witness for C6: InvalidArgument (code 3) with maxRetries = 5. -/
theorem retry_terminal_classification_witness :
    WithRetryAndMetrics opsC6 5 =
      (1, RetryOutcome.err (GoError.grpcStatus 3 "invalid argument")) :=
  retry_terminal_classification opsC6
    (GoError.grpcStatus 3 "invalid argument") 5 rfl (by decide)

open RL

/-- refillTokens preserves the rate-limiter invariant. -/
theorem refillTokens_inv (rl : RateLimiter) (now : ℚ) (h : TokenInv rl) :
    TokenInv (refillTokens rl now) := by
  obtain ⟨h0, h1, h2⟩ := h
  have hmax : 0 ≤ rl.maxTokens := le_trans h0 h1
  unfold refillTokens TokenInv
  by_cases he : 0 < now - rl.lastRefillTime
  · rw [if_pos he]
    by_cases hc : rl.maxTokens < rl.tokens + (now - rl.lastRefillTime) * rl.refillRate
    · simp only [hc, if_true]
      exact ⟨hmax, le_refl _, h2⟩
    · simp only [hc, if_false]
      exact ⟨by nlinarith, not_lt.mp hc, h2⟩
  · rw [if_neg he]
    exact ⟨h0, h1, h2⟩

/-- refillTokens never changes maxTokens. -/
theorem refillTokens_maxTokens (rl : RateLimiter) (now : ℚ) :
    (refillTokens rl now).maxTokens = rl.maxTokens := by
  unfold refillTokens
  by_cases he : 0 < now - rl.lastRefillTime <;> simp [he]

/-- Allow preserves the rate-limiter invariant. -/
theorem allow_inv (rl : RateLimiter) (now : ℚ) (h : TokenInv rl) :
    TokenInv (Allow rl now).1 := by
  have h1 := refillTokens_inv rl now h
  obtain ⟨ha, hb, hc⟩ := h1
  unfold Allow TokenInv
  by_cases ht : 1 ≤ (refillTokens rl now).tokens
  · simp only [ht, if_true]
    exact ⟨show (0:ℚ) ≤ (refillTokens rl now).tokens - 1 by linarith,
      show (refillTokens rl now).tokens - 1 ≤ (refillTokens rl now).maxTokens by
        linarith, hc⟩
  · simp only [ht, if_false]
    exact ⟨ha, hb, hc⟩

/-- SetRate preserves the rate-limiter invariant. -/
theorem setRate_inv (rl : RateLimiter) (now rate : ℚ) (h : TokenInv rl) :
    TokenInv (SetRate rl now rate) := by
  unfold SetRate
  by_cases hr : rate ≤ 0
  · simpa [hr] using h
  · have hrpos : 0 < rate := lt_of_not_le hr
    have h1 := refillTokens_inv rl now h
    obtain ⟨ha, hb, hc⟩ := h1
    simp only [hr, if_false]
    by_cases hm : (refillTokens rl now).maxTokens < rate
    · simp only [hm, if_true]
      by_cases hcl : rate < (refillTokens rl now).tokens
      · simp only [hcl, if_true]
        exact ⟨le_of_lt hrpos, le_refl rate, hrpos⟩
      · simp only [hcl, if_false]
        exact ⟨ha, not_lt.mp hcl, hrpos⟩
    · simp only [hm, if_false]
      exact ⟨ha, hb, hrpos⟩

/-- GetAvailableTokens preserves the rate-limiter invariant. -/
theorem getAvailableTokens_inv (rl : RateLimiter) (now : ℚ) (h : TokenInv rl) :
    TokenInv (GetAvailableTokens rl now).1 :=
  refillTokens_inv rl now h

/-- The Wait polling loop (a fold of Allow) preserves the invariant. -/
theorem foldl_allow_inv :
    ∀ (instants : List ℚ) (rl : RateLimiter), TokenInv rl →
      TokenInv (instants.foldl (fun r t => (Allow r t).1) rl) := by
  intro instants
  induction instants with
  | nil => intro rl h; exact h
  | cons t ts ih => intro rl h; exact ih _ (allow_inv rl t h)

/-- Every rate-limiter operation preserves the invariant. -/
theorem applyOp_inv (rl : RateLimiter) (op : RLOp) (h : TokenInv rl) :
    TokenInv (applyOp rl op) := by
  cases op with
  | allow now => exact allow_inv rl now h
  | wait instants => exact foldl_allow_inv instants rl h
  | setRate now rate => exact setRate_inv rl now rate h
  | getTokens now => exact getAvailableTokens_inv rl now h

theorem applyOps_inv :
    ∀ (ops : List RLOp) (rl : RateLimiter), TokenInv rl →
      TokenInv (applyOps rl ops) := by
  intro ops
  induction ops with
  | nil => intro rl h; exact h
  | cons op ops ih => intro rl h; exact ih _ (applyOp_inv rl op h)

/-- A freshly constructed rate limiter satisfies the invariant. -/
theorem newRateLimiter_inv (config : RateLimiterConfig) (now : ℚ) :
    TokenInv (NewRateLimiter config now) := by
  unfold NewRateLimiter TokenInv
  by_cases hr : config.RequestsPerSecond ≤ 0
  · by_cases hb : config.MaxBurst ≤ 0
    · simp [hr, hb]
    · have hb1 := lt_of_not_le hb
      simp only [hr, hb, if_true, if_false]
      exact ⟨le_of_lt hb1, le_refl _, by norm_num⟩
  · have hr1 := lt_of_not_le hr
    by_cases hb : config.MaxBurst ≤ 0
    · simp only [hr, hb, if_true, if_false]
      exact ⟨le_of_lt hr1, le_refl _, hr1⟩
    · have hb1 := lt_of_not_le hb
      simp only [hr, hb, if_true, if_false]
      exact ⟨le_of_lt hb1, le_refl _, hr1⟩

/-- Claim C7: for every rate limiter and every sequence of Allow, Wait,
SetRate and GetAvailableTokens operations, the token balance satisfies
0 ≤ tokens ≤ maxTokens at every observation point (each operation refills
lazily at its own instant; there is no background refill step in the
model, as in the code). -/
theorem rate_limiter_token_range (config : RateLimiterConfig) (now : ℚ)
    (ops : List RLOp) :
    0 ≤ (applyOps (NewRateLimiter config now) ops).tokens
    ∧ (applyOps (NewRateLimiter config now) ops).tokens
        ≤ (applyOps (NewRateLimiter config now) ops).maxTokens := by
  have h := applyOps_inv ops (NewRateLimiter config now)
    (newRateLimiter_inv config now)
  exact ⟨h.1, h.2.1⟩

set_option maxHeartbeats 1000000

/-- Claim C2: with RequestsPerSecond 10 and MaxBurst 5, the first five
Allow calls (no elapsed time) succeed, the sixth fails, one further Allow
after 1 second succeeds, and a refill never raises the balance above
maxTokens. -/
theorem token_bucket_capacity :
    (Allow rlC2 0).2 = true
    ∧ (Allow rlA1 0).2 = true
    ∧ (Allow rlA2 0).2 = true
    ∧ (Allow rlA3 0).2 = true
    ∧ (Allow rlA4 0).2 = true
    ∧ (Allow rlA5 0).2 = false
    ∧ (Allow rlA6 1).2 = true
    ∧ ∀ (rl : RateLimiter) (now : ℚ), rl.tokens ≤ rl.maxTokens →
        (refillTokens rl now).tokens ≤ rl.maxTokens := by
  refine ⟨?_, ?_, ?_, ?_, ?_, ?_, ?_, ?_⟩
  · norm_num [rlC2, NewRateLimiter, Allow, refillTokens]
  · norm_num [rlA1, rlC2, NewRateLimiter, Allow, refillTokens]
  · norm_num [rlA2, rlA1, rlC2, NewRateLimiter, Allow, refillTokens]
  · norm_num [rlA3, rlA2, rlA1, rlC2, NewRateLimiter, Allow, refillTokens]
  · norm_num [rlA4, rlA3, rlA2, rlA1, rlC2, NewRateLimiter, Allow, refillTokens]
  · norm_num [rlA5, rlA4, rlA3, rlA2, rlA1, rlC2, NewRateLimiter, Allow,
      refillTokens]
  · norm_num [rlA6, rlA5, rlA4, rlA3, rlA2, rlA1, rlC2, NewRateLimiter, Allow,
      refillTokens]
  · intro rl now h
    unfold refillTokens
    by_cases he : 0 < now - rl.lastRefillTime
    · rw [if_pos he]
      by_cases hc : rl.maxTokens < rl.tokens + (now - rl.lastRefillTime) * rl.refillRate
      · simp [hc]
      · simp only [hc, if_false]
        exact not_lt.mp hc
    · rw [if_neg he]
      exact h

open Pool

/-- The acquire path satisfies its specification in the creation branch. -/
theorem caq_spec_create (st : Nat → ConnState) (s : PoolState)
    (h : s.counter < s.maxSize) :
    CaqSpec st s (createOrAcquireConnection st s) := by
  rw [createOrAcquireConnection.eq_def]
  simp only [h, if_true]
  refine ⟨?_, ?_, ?_, ?_, ?_⟩
  · intro c hc
    simp only [createConnection, GetResult.ok.injEq] at hc
    omega
  · intro c hc
    simp [createConnection] at hc
  · simp [createConnection]
  · simp [createConnection]
  · intro x hx
    simpa [createConnection] using hx

/-- createOrAcquireConnection satisfies its specification, by induction on
the length of the idle channel. -/
theorem caq_spec_holds (st : Nat → ConnState) :
    ∀ (n : Nat) (s : PoolState), s.idle.length ≤ n →
      CaqSpec st s (createOrAcquireConnection st s) := by
  intro n
  induction n with
  | zero =>
    intro s hlen
    by_cases hc : s.counter < s.maxSize
    · exact caq_spec_create st s hc
    · have hid : s.idle = [] := List.length_eq_zero.mp (Nat.le_zero.mp hlen)
      rw [createOrAcquireConnection.eq_def]
      simp only [hc, if_false]
      split
      · exact ⟨fun c h => by simp at h, fun c h => by simp at h, by simp,
          le_refl _, fun x hx => hx⟩
      · rename_i c rest hcr
        rw [hid] at hcr
        cases hcr
  | succ n ih =>
    intro s hlen
    by_cases hc : s.counter < s.maxSize
    · exact caq_spec_create st s hc
    · rw [createOrAcquireConnection.eq_def]
      simp only [hc, if_false]
      split
      · exact ⟨fun c h => by simp at h, fun c h => by simp at h, by simp,
          le_refl _, fun x hx => hx⟩
      · rename_i c rest hcr
        by_cases hh : isConnectionHealthy st c
        · simp only [hh, if_true]
          refine ⟨?_, ?_, ?_, ?_, ?_⟩
          · intro c1 h1
            simp only [GetResult.ok.injEq] at h1
            subst h1
            exact Or.inl hh
          · intro c1 h1
            simp at h1
          · simp
          · simp
          · intro x hx
            simpa using hx
        · simp only [hh, if_false]
          have hlen1 : (closeConn { s with idle := rest } c).idle.length ≤ n := by
            have h3 := hlen
            rw [hcr] at h3
            simp only [List.length_cons] at h3
            simp [closeConn]
            omega
          obtain ⟨ra, rb, rc, rd, re⟩ :=
            ih (closeConn { s with idle := rest } c) hlen1
          refine ⟨?_, ?_, ?_, ?_, ?_⟩
          · intro c1 h1
            have h2 := ra c1 h1
            simpa [closeConn] using h2
          · intro c1 h1
            rcases List.mem_cons.mp h1 with h2 | h2
            · subst h2
              exact ⟨by simpa using hh,
                re c1 (List.mem_cons_self c1 s.closedConns)⟩
            · exact rb c1 h2
          · have hcounter :
                (closeConn { s with idle := rest } c).counter = s.counter - 1 := by
              simp [closeConn]
            have hnext :
                (closeConn { s with idle := rest } c).nextId = s.nextId := by
              simp [closeConn]
            rw [hcounter, hnext] at rc
            simp
            omega
          · have hnext :
                (closeConn { s with idle := rest } c).nextId = s.nextId := by
              simp [closeConn]
            rw [hnext] at rd
            exact rd
          · intro x hx
            refine re x ?_
            simp [closeConn]
            exact Or.inr hx

/-- Get satisfies the acquire specification. -/
theorem get_spec (st : Nat → ConnState) (s : PoolState) :
    CaqSpec st s (Get st s) := by
  unfold Get
  by_cases hcl : s.closed = true
  · rw [if_pos hcl]
    exact ⟨fun c h => by simp at h, fun c h => by simp at h, by simp,
      le_refl _, fun x hx => hx⟩
  · rw [if_neg hcl]
    cases hcr : s.idle with
    | nil => exact caq_spec_holds st s.idle.length s (le_refl _)
    | cons c rest =>
      by_cases hh : isConnectionHealthy st c
      · simp only [hh, if_true]
        refine ⟨?_, ?_, ?_, ?_, ?_⟩
        · intro c1 h1
          simp only [GetResult.ok.injEq] at h1
          subst h1
          exact Or.inl hh
        · intro c1 h1
          simp at h1
        · simp
        · simp
        · intro x hx
          simpa using hx
      · simp only [hh, if_false]
        obtain ⟨ra, rb, rc, rd, re⟩ :=
          caq_spec_holds st (closeConn { s with idle := rest } c).idle.length
            (closeConn { s with idle := rest } c) (le_refl _)
        refine ⟨?_, ?_, ?_, ?_, ?_⟩
        · intro c1 h1
          have h2 := ra c1 h1
          simpa [closeConn] using h2
        · intro c1 h1
          rcases List.mem_cons.mp h1 with h2 | h2
          · subst h2
            exact ⟨by simpa using hh,
              re c1 (List.mem_cons_self c1 s.closedConns)⟩
          · exact rb c1 h2
        · have hcounter :
              (closeConn { s with idle := rest } c).counter = s.counter - 1 := by
            simp [closeConn]
          have hnext :
              (closeConn { s with idle := rest } c).nextId = s.nextId := by
            simp [closeConn]
          rw [hcounter, hnext] at rc
          simp
          omega
        · have hnext :
              (closeConn { s with idle := rest } c).nextId = s.nextId := by
            simp [closeConn]
          rw [hnext] at rd
          exact rd
        · intro x hx
          refine re x ?_
          simp [closeConn]
          exact Or.inr hx

/-- Claim C9: Get never returns a pooled (idle-set) connection whose state
is TransientFailure or Shutdown; every connection it evicts from the idle
set is unhealthy, closed, and accounted by one counter decrement each
(plus one increment per fresh creation, measured by the nextId delta). -/
theorem pool_health_eviction (st : Nat → ConnState) (s s' : PoolState)
    (r : GetResult) (E : List Nat)
    (hwf : ∀ c, c ∈ s.idle → c < s.nextId)
    (hget : Get st s = (s', r, E)) :
    (∀ c, r = GetResult.ok c → c ∈ s.idle → isConnectionHealthy st c = true)
    ∧ (∀ c, c ∈ E → isConnectionHealthy st c = false ∧ c ∈ s'.closedConns)
    ∧ s'.counter = s.counter - E.length + ((s'.nextId : Int) - (s.nextId : Int)) := by
  have hs := get_spec st s
  rw [hget] at hs
  obtain ⟨ra, rb, rc, _, _⟩ := hs
  refine ⟨?_, rb, rc⟩
  intro c hr hc
  rcases ra c hr with h | h
  · exact h
  · exact absurd (hwf c hc) (by omega)

/-- Witness for C9: a pool whose only idle connection (id 0) is in
TransientFailure; Get evicts and closes it, decrements the counter, and
returns a freshly created healthy connection (id 1) instead. -/
theorem pool_health_eviction_witness :
    (∀ c, GetResult.ok 1 = GetResult.ok c → c ∈ poolC9.idle →
        isConnectionHealthy stC9 c = true)
    ∧ (∀ c, c ∈ ([0] : List Nat) → isConnectionHealthy stC9 c = false ∧
        c ∈ ({ idle := [], live := [1], closedConns := [0], counter := 1,
               maxSize := 1, nextId := 2, closed := false } : PoolState).closedConns)
    ∧ ({ idle := [], live := [1], closedConns := [0], counter := 1,
         maxSize := 1, nextId := 2, closed := false } : PoolState).counter
        = poolC9.counter - (([0] : List Nat).length : Int)
          + ((({ idle := [], live := [1], closedConns := [0], counter := 1,
                 maxSize := 1, nextId := 2, closed := false } : PoolState).nextId : Int)
              - (poolC9.nextId : Int)) := by
  have hget : Get stC9 poolC9 =
      ({ idle := [], live := [1], closedConns := [0], counter := 1,
         maxSize := 1, nextId := 2, closed := false }, GetResult.ok 1, [0]) := by
    simp [Get, poolC9, createOrAcquireConnection, closeConn, createConnection,
      stC9, isConnectionHealthy]
  exact pool_health_eviction stC9 poolC9 _ _ _
    (by intro c hc; simp [poolC9] at hc ⊢; omega) hget

/-- Claim C3 (the bug): NewConnectionPool creates the initial connections
without ever incrementing the live counter, so with InitialSize 1 and
MaxSize 1 the fresh pool already has 1 live connection but counter 0, and
after two Get calls (no Put) there are 2 live connections — more than
maxSize — while the counter reads 1. -/
theorem pool_capacity_violation :
    poolC3.maxSize = 1
    ∧ poolC3.live.length = 1
    ∧ poolC3.counter = 0
    ∧ poolC3b.live.length = 2
    ∧ poolC3b.counter = 1 := by
  refine ⟨?_, ?_, ?_, ?_, ?_⟩ <;>
    simp [poolC3b, poolC3, NewConnectionPool, poolInit, createConnection, Get,
      createOrAcquireConnection, stReady, isConnectionHealthy]

/-- Claim C8 (the bug): calling Stop twice with no intervening Start is
safe, but the sequence Start, Stop, Start, Stop makes the second Stop
close the already-closed stop channel, which panics in Go (modelled as
none). -/
theorem health_checker_stop_panics :
    HC.runHC [HC.HCOp.start, HC.HCOp.stop, HC.HCOp.stop]
        (some HC.NewHealthChecker)
      = some { isRunning := false, stopChanClosed := true }
    ∧ HC.runHC [HC.HCOp.start, HC.HCOp.stop, HC.HCOp.start, HC.HCOp.stop]
        (some HC.NewHealthChecker) = none := by
  decide

/-- Witness for C2: the refill-clamp component applied to a concrete
limiter state with 1 second of pending credit. -/
theorem token_bucket_capacity_witness :
    (refillTokens
      { tokens := 3, maxTokens := 5, refillRate := 10,
        lastRefillTime := 0, waitTimeout := 0 } 1).tokens
      ≤ ({ tokens := 3, maxTokens := 5, refillRate := 10,
           lastRefillTime := 0, waitTimeout := 0 } : RateLimiter).maxTokens :=
  token_bucket_capacity.2.2.2.2.2.2.2
    { tokens := 3, maxTokens := 5, refillRate := 10,
      lastRefillTime := 0, waitTimeout := 0 } 1 (by norm_num)

end EmailClient
